import Mathlib

/-!
Verification of the `keybaseca` orchestration layer
(`src/cmd/keybaseca/keybaseca.go`) against its natural-language design.

The Go file is shallowly embedded: pure computations become Lean
functions, the KBFS Team Directory Store becomes an explicit association
list threaded through each operation, and the external collaborators
(the keybase bot, the KBFS client, the signer, config validation) become
environment records whose fields say how each external call would
answer.  Every branch of the embedded functions mirrors a branch of the
Go source.
-/

/-- One kssh client config entry, mirroring `kssh.ConfigFile`
(fields `TeamName`, `BotName`, `ChannelName`), the JSON record written
to each team's namespace.  `json.Marshal` on a struct of strings cannot
fail, so serialization is modelled as the identity on this record. -/
structure ConfigFile where
  teamName : String
  botName : String
  channelName : String
deriving DecidableEq

/-- The slice of `config.Config` the orchestration layer reads:
`GetTeams`, `GetChatTeam` (empty string means unset) and
`GetChannelName`. -/
structure Config where
  teams : List String
  chatTeam : String
  channelName : String

/-- Modelled from the spec: `shared.ConfigFilename` (in the `shared`
package, outside this file) is the reserved, well-known config filename
inside a team's namespace.  Its exact value is irrelevant to every
claim; only that it is one fixed name. -/
def configFilename : String := "kssh-client.config"

/-- The path of a team's client config file:
`filepath.Join("/keybase/team/", team, shared.ConfigFilename)` in
`writeClientConfig`/`deleteClientConfig` and the identical
`fmt.Sprintf("/keybase/team/%s/%s", team, shared.ConfigFilename)` in
the wipe-all-configs scan.  For well-formed team names `filepath.Join`
is plain slash concatenation (no cleaning occurs), which is how it is
modelled. -/
def configPath (team : String) : String :=
  "/keybase/team/" ++ team ++ "/" ++ configFilename

/-- The Team Directory Store restricted to client config files: an
association list from path to stored entry. -/
def Store : Type := List (String × ConfigFile)

/-- Lookup of the entry stored at a path. -/
def storeLookup : Store → String → Option ConfigFile
  | [], _ => none
  | (q, c) :: rest, p => if q = p then some c else storeLookup rest p

/-- `KBFSDelete` on the store model: remove every entry at the path. -/
def storeErase : Store → String → Store
  | [], _ => []
  | (q, c) :: rest, p =>
    if q = p then storeErase rest p else (q, c) :: storeErase rest p

/-- `KBFSWrite` on the store model: an existing file at the path is
overwritten, not merged. -/
def storeWrite (s : Store) (p : String) (c : ConfigFile) : Store :=
  (p, c) :: storeErase s p

/-- Modelled from the spec: the external collaborators used by
`writeClientConfig` and `deleteClientConfig` — `bot.GetUsername`
(resolving the bot account identity) and the KBFS client's
write/delete, each of which may fail.  `writeErr p` / `deleteErr p` is
`some e` when the store operation on path `p` would fail with error
`e`, and `none` when it would succeed. -/
structure KBFSEnv where
  username : Except String String
  writeErr : String → Option String
  deleteErr : String → Option String

/-- The team list `writeClientConfig` iterates over:
`teams := conf.GetTeams()`, then the chat team is appended whenever
`conf.GetChatTeam() != ""`. -/
def writeTeams (conf : Config) : List String :=
  if conf.chatTeam ≠ "" then conf.teams ++ [conf.chatTeam] else conf.teams

/-- The team list `deleteClientConfig` iterates over; the Go function
repeats the same computation as `writeClientConfig`. -/
def deleteTeams (conf : Config) : List String :=
  if conf.chatTeam ≠ "" then conf.teams ++ [conf.chatTeam] else conf.teams

/-- The entry `writeClientConfig` marshals for a given team: with no
chat team configured the entry references the team it is placed in
(`ChannelName: ""`); with a chat team configured every entry references
the chat team and its channel. -/
def entryFor (conf : Config) (username team : String) : ConfigFile :=
  if conf.chatTeam = "" then
    ⟨team, username, ""⟩
  else
    ⟨conf.chatTeam, username, conf.channelName⟩

/-- Result of `writeClientConfig`: the final store, the trace of
`(path, entry)` pairs actually written (in order), and the returned
error. -/
structure WriteResult where
  store : Store
  written : List (String × ConfigFile)
  error : Option String

/-- The `for _, team := range teams` loop of `writeClientConfig`: write
each team's entry; on the first failing `KBFSWrite` return its error
immediately. -/
def writeClientConfigLoop (env : KBFSEnv) (conf : Config) (username : String) :
    Store → List String → WriteResult
  | s, [] => ⟨s, [], none⟩
  | s, team :: rest =>
    let p := configPath team
    let content := entryFor conf username team
    match env.writeErr p with
    | some e => ⟨s, [], some e⟩
    | none =>
      let r := writeClientConfigLoop env conf username (storeWrite s p content) rest
      ⟨r.store, (p, content) :: r.written, r.error⟩

/-- `writeClientConfig` (the Distributor's Publish): resolve the bot
username, returning its error before any write if resolution fails;
otherwise write one entry per team of `writeTeams`. -/
def writeClientConfig (env : KBFSEnv) (conf : Config) (s : Store) : WriteResult :=
  match env.username with
  | .error e => ⟨s, [], some e⟩
  | .ok username => writeClientConfigLoop env conf username s (writeTeams conf)

/-- Result of `deleteClientConfig`: the final store, the trace of paths
whose deletion was attempted (in order), and the returned error. -/
structure DeleteResult where
  store : Store
  attempted : List String
  error : Option String

/-- The `for _, team := range teams` loop of `deleteClientConfig`:
delete each team's config file; on the first failing `KBFSDelete`
return its error immediately. -/
def deleteClientConfigLoop (env : KBFSEnv) : Store → List String → DeleteResult
  | s, [] => ⟨s, [], none⟩
  | s, team :: rest =>
    let p := configPath team
    match env.deleteErr p with
    | some e => ⟨s, [p], some e⟩
    | none =>
      let r := deleteClientConfigLoop env (storeErase s p) rest
      ⟨r.store, p :: r.attempted, r.error⟩

/-- `deleteClientConfig` (the Distributor's Retract): delete the config
file of every team of `deleteTeams`, stopping at the first failure. -/
def deleteClientConfig (env : KBFSEnv) (conf : Config) (s : Store) : DeleteResult :=
  deleteClientConfigLoop env s (deleteTeams conf)

/-- The store after successfully publishing for each team of `ts`, used
to characterise partial publishes. -/
def publishStoreFold (conf : Config) (username : String) (s : Store) (ts : List String) : Store :=
  ts.foldl (fun acc t => storeWrite acc (configPath t) (entryFor conf username t)) s

/-- The store after successfully deleting each team's config of `ts`. -/
def deleteStoreFold (s : Store) (ts : List String) : Store :=
  ts.foldl (fun acc t => storeErase acc (configPath t)) s

/-- Modelled from the spec: the externals of `serviceAction` —
`config.ValidateConfig` (the Config Provider) and `bot.StartBot` (the
chat-transport collaborator, which runs until stopped and returns
`nil` or an error). -/
structure ServiceEnv where
  kbfs : KBFSEnv
  validateErr : Option String
  startBot : Option String

/-- Result of `serviceAction`: the final store, the trace of config
paths whose deletion was attempted during retraction, and the returned
error. -/
structure ServiceResult where
  store : Store
  deletesAttempted : List String
  error : Option String

/-- `serviceAction`: `loadServerConfigAndWriteClientConfig` (validate,
then publish, wrapping a publish failure), then `bot.StartBot`; a bot
error is returned wrapped as `CA chatbot crashed: ...`, otherwise the
client config is retracted.  The signal handler installed by
`captureControlCToDeleteClientConfig` is concurrent machinery outside
this sequential path and is not part of the returned value. -/
def serviceAction (env : ServiceEnv) (conf : Config) (s : Store) : ServiceResult :=
  match env.validateErr with
  | some e => ⟨s, [], some ("Failed to validate config: " ++ e)⟩
  | none =>
    let w := writeClientConfig env.kbfs conf s
    match w.error with
    | some e => ⟨w.store, [], some ("Failed to write the client config: " ++ e)⟩
    | none =>
      match env.startBot with
      | some e => ⟨w.store, [], some ("CA chatbot crashed: " ++ e)⟩
      | none =>
        let d := deleteClientConfig env.kbfs conf w.store
        ⟨d.store, d.attempted, d.error⟩

/-- Boolean membership of a path in a plain file system, modelling
`os.Stat`/`KBFSFileExists` existence checks. -/
def fsContains : List String → String → Bool
  | [], _ => false
  | a :: rest, p => if a = p then true else fsContains rest p

/-- Removal of a path from a plain file system, modelling a successful
file deletion. -/
def fsErase : List String → String → List String
  | [], _ => []
  | a :: rest, p => if a = p then fsErase rest p else a :: fsErase rest p

/-- Modelled from the spec: `shared.PubKeyPathToKeyPath` (outside this
file) maps the public key path to the key path by stripping a `.pub`
suffix. -/
def pubKeyPathToKeyPath (p : String) : String :=
  let r := p.data.reverse
  if r.take 4 = ['b', 'u', 'p', '.'] then String.mk (r.drop 4).reverse else p

/-- Modelled from the spec: `shared.KeyPathToCert` (outside this file)
derives the certificate path next to the key — same base name,
certificate extension. -/
def keyPathToCert (p : String) : String := p ++ "-cert.pub"

/-- The derived certificate path used by `signAction`:
`shared.KeyPathToCert(shared.PubKeyPathToKeyPath(filename))`. -/
def certPathOf (filename : String) : String :=
  keyPathToCert (pubKeyPathToKeyPath filename)

/-- Modelled from the spec: the externals of `signAction` —
`config.ValidateConfig` in offline mode, `uuid.NewRandom`,
`ioutil.ReadFile` on the public key path, the external Certificate
Signer `sshutils.SignKey` (as a function of the public key bytes; the
CA key location, key ID, principals and expiration it also receives do
not affect any claim), and `ioutil.WriteFile` failure on a path. -/
structure SignEnv where
  validateErr : Option String
  uuidErr : Option String
  readFile : String → Except String String
  sign : String → Except String String
  writeErr : String → Option String

/-- Result of `signAction`: the final file system, the `(path,
contents)` pairs written, whether the certificate was printed to
stdout instead of written, and the returned error. -/
structure SignResult where
  fs : List String
  filesWritten : List (String × String)
  printedCert : Bool
  error : Option String

/-- `signAction`: validate, draw a UUID, read the public key, sign it,
then either write the certificate at the derived path — when `os.Stat`
reports the path absent or `--overwrite` is given — or print it. -/
def signAction (env : SignEnv) (fs : List String) (filename : String)
    (overwrite : Bool) : SignResult :=
  match env.validateErr with
  | some e => ⟨fs, [], false, some ("Invalid config: " ++ e)⟩
  | none =>
  match env.uuidErr with
  | some e => ⟨fs, [], false, some ("Failed to generate unique key ID: " ++ e)⟩
  | none =>
  match env.readFile filename with
  | .error e => ⟨fs, [], false, some ("Failed to read file at " ++ filename ++ " to get the public key: " ++ e)⟩
  | .ok pubKey =>
  match env.sign pubKey with
  | .error e => ⟨fs, [], false, some ("Failed to sign key: " ++ e)⟩
  | .ok signature =>
    let certPath := certPathOf filename
    if !fsContains fs certPath || overwrite then
      match env.writeErr certPath with
      | some e => ⟨fs, [], false, some ("Failed to write certificate to file: " ++ e)⟩
      | none =>
        ⟨if fsContains fs certPath then fs else certPath :: fs,
         [(certPath, signature)], false, none⟩
    else
      ⟨fs, [], true, none⟩

/-- Modelled from the spec: the externals of `backupAction` —
`fmt.Scanln` reading the interactive response (which can fail),
`config.ValidateConfig` inside `loadServerConfig`, the configured CA
key location, and `ioutil.ReadFile`. -/
structure BackupEnv where
  scanln : Except String String
  validateErr : Option String
  caKeyLocation : String
  readFile : String → Except String String

/-- Result of `backupAction`: the trace of file paths read and the
returned error. -/
structure BackupResult where
  reads : List String
  error : Option String

/-- `backupAction`: read the typed response (propagating a read
failure), abort unless it is exactly `"yes"`, load and validate the
config, then read and print the CA key file. -/
def backupAction (env : BackupEnv) : BackupResult :=
  match env.scanln with
  | .error e => ⟨[], some e⟩
  | .ok response =>
    if response ≠ "yes" then
      ⟨[], some "Did not get confirmation of key export, aborting"⟩
    else
      match env.validateErr with
      | some e => ⟨[], some ("Failed to validate config: " ++ e)⟩
      | none =>
        match env.readFile env.caKeyLocation with
        | .error e =>
          ⟨[env.caKeyLocation], some ("Failed to load the CA key from " ++ env.caKeyLocation ++ ": " ++ e)⟩
        | .ok _ => ⟨[env.caKeyLocation], none⟩

/-- Modelled from the spec: the per-path outcome of `KBFSDelete` during
the wipe-all-configs scan (`true` = the delete succeeds, `false` = it
fails and the error is only printed). -/
structure WipeEnv where
  deleteOk : String → Bool

/-- The per-team body of the wipe-all-configs scan, sequentialised: for
each team check `KBFSFileExists` on its config path; if present,
attempt `KBFSDelete` (a failure is only printed) and record the team in
`teamsFound` regardless of the delete's outcome.  Each task touches
only its own team's path, so the set of recorded teams and the final
file system do not depend on the interleaving; the concurrency bound
itself is modelled separately by `ScanStep`. -/
def wipeLoop (env : WipeEnv) : List String → List String → List String →
    List String × List String
  | fs, found, [] => (fs, found)
  | fs, found, team :: rest =>
    let p := configPath team
    if fsContains fs p then
      wipeLoop env (if env.deleteOk p then fsErase fs p else fs) (found ++ [team]) rest
    else
      wipeLoop env fs found rest

/-- The wipe-all-configs branch of `mainAction`, applied to the team
list returned by `KBFSList("/keybase/team/")`: returns the final file
system and the reported `teamsFound`. -/
def wipeAllConfigs (env : WipeEnv) (fs : List String) (teams : List String) :
    List String × List String :=
  wipeLoop env fs [] teams

/-- Abstract state of the bounded scan's concurrency structure:
`waiting` goroutines launched but not yet through `boundChan <- 0`,
`inflight` goroutines holding a slot of the bounded channel (that is,
between the send and the matching receive, where the existence check
and delete happen), and `finished` goroutines past the receive. -/
structure ScanState where
  waiting : Nat
  inflight : Nat
  finished : Nat
deriving DecidableEq

/-- The initial scan state: one goroutine launched per team, none yet
holding a slot. -/
def initScan (n : Nat) : ScanState := ⟨n, 0, 0⟩

/-- One scheduler step of the bounded scan with limit `L` (the capacity
of `boundChan`): a waiting goroutine's `boundChan <- 0` completes only
while fewer than `L` slots are held; a goroutine holding a slot may
finish its I/O and release the slot with `<-boundChan`. -/
inductive ScanStep (L : Nat) : ScanState → ScanState → Prop
  | acquire (w i f : Nat) : i < L → ScanStep L ⟨w + 1, i, f⟩ ⟨w, i + 1, f⟩
  | release (w i f : Nat) : ScanStep L ⟨w, i + 1, f⟩ ⟨w, i, f + 1⟩

/-- Reachability of a scan state from the initial state for `n` teams
under scheduler steps. -/
def ScanReach (L n : Nat) (s : ScanState) : Prop :=
  Relation.ReflTransGen (ScanStep L) (initScan n) s

/-- A KBFS environment in which the bot account resolves to `"bot"` and
every store operation succeeds. -/
def kbfsOk : KBFSEnv := ⟨.ok "bot", fun _ => none, fun _ => none⟩

/-- A KBFS environment in which resolving the bot account fails. -/
def kbfsNoUser : KBFSEnv := ⟨.error "user err", fun _ => none, fun _ => none⟩

/-- A KBFS environment in which only the delete of team `teama`'s
config file fails. -/
def kbfsFailDeleteA : KBFSEnv :=
  ⟨.ok "bot", fun _ => none,
   fun p => if p = configPath "teama" then some "delete failed" else none⟩

/-- A KBFS environment in which only the write of team `teamb`'s config
file fails. -/
def kbfsFailWriteB : KBFSEnv :=
  ⟨.ok "bot",
   fun p => if p = configPath "teamb" then some "write failed" else none,
   fun _ => none⟩

/-- A service environment whose bot crashes with error `"boom"` over an
otherwise fully working KBFS. -/
def svcBotErr : ServiceEnv := ⟨kbfsOk, none, some "boom"⟩

/-- A sign environment in which every external call succeeds: the
public key reads as `"PUBKEY"` and the signer returns `"CERT"`. -/
def signOk : SignEnv :=
  ⟨none, none, fun _ => .ok "PUBKEY", fun _ => .ok "CERT", fun _ => none⟩

/-- A wipe environment in which every `KBFSDelete` succeeds. -/
def wipeOk : WipeEnv := ⟨fun _ => true⟩

/-- A wipe environment in which every `KBFSDelete` fails (the scan only
prints the error). -/
def wipeFailDelete : WipeEnv := ⟨fun _ => false⟩

lemma storeLookup_storeErase_self (s : Store) (p : String) :
    storeLookup (storeErase s p) p = none := by
  induction s with
  | nil => rfl
  | cons kv rest ih =>
    obtain ⟨q, c⟩ := kv
    by_cases h : q = p
    · simp [storeErase, h, ih]
    · simp [storeErase, storeLookup, h, ih]

lemma storeLookup_storeErase_of_none (s : Store) (p q : String)
    (h : storeLookup s p = none) : storeLookup (storeErase s q) p = none := by
  induction s with
  | nil => rfl
  | cons kv rest ih =>
    obtain ⟨r, c⟩ := kv
    by_cases hr : r = p
    · simp [storeLookup, hr] at h
    · simp only [storeLookup, if_neg hr] at h
      by_cases hq : r = q
      · simp [storeErase, hq, ih h]
      · simp [storeErase, storeLookup, hq, hr, ih h]

lemma storeLookup_deleteStoreFold_of_none (ts : List String) (s : Store) (p : String)
    (h : storeLookup s p = none) : storeLookup (deleteStoreFold s ts) p = none := by
  induction ts generalizing s with
  | nil => exact h
  | cons t rest ih =>
    exact ih _ (storeLookup_storeErase_of_none _ _ _ h)

lemma storeLookup_deleteStoreFold (ts : List String) (s : Store) (t : String)
    (h : t ∈ ts) : storeLookup (deleteStoreFold s ts) (configPath t) = none := by
  induction ts generalizing s with
  | nil => cases h
  | cons t' rest ih =>
    show storeLookup (deleteStoreFold (storeErase s (configPath t')) rest) (configPath t) = none
    rcases List.mem_cons.mp h with h | h
    · subst h
      exact storeLookup_deleteStoreFold_of_none rest _ _ (storeLookup_storeErase_self _ _)
    · exact ih _ h

lemma writeClientConfigLoop_ok (env : KBFSEnv) (conf : Config) (u : String)
    (ts : List String) (s : Store)
    (h : (writeClientConfigLoop env conf u s ts).error = none) :
    writeClientConfigLoop env conf u s ts =
      ⟨publishStoreFold conf u s ts,
       ts.map (fun t => (configPath t, entryFor conf u t)), none⟩ := by
  induction ts generalizing s with
  | nil => rfl
  | cons t rest ih =>
    cases hw : env.writeErr (configPath t) with
    | some e =>
      simp [writeClientConfigLoop, hw] at h
    | none =>
      simp only [writeClientConfigLoop, hw] at h ⊢
      rw [ih _ h]
      simp [publishStoreFold]

lemma writeClientConfigLoop_written_mem (env : KBFSEnv) (conf : Config) (u : String)
    (ts : List String) (s : Store) (pc : String × ConfigFile)
    (h : pc ∈ (writeClientConfigLoop env conf u s ts).written) :
    ∃ t ∈ ts, pc = (configPath t, entryFor conf u t) := by
  induction ts generalizing s with
  | nil => cases h
  | cons t rest ih =>
    cases hw : env.writeErr (configPath t) with
    | some e =>
      rw [show writeClientConfigLoop env conf u s (t :: rest) =
            ⟨s, [], some e⟩ by simp [writeClientConfigLoop, hw]] at h
      cases h
    | none =>
      simp only [writeClientConfigLoop, hw] at h
      rcases List.mem_cons.mp h with h | h
      · exact ⟨t, List.mem_cons_self .., h⟩
      · obtain ⟨t', ht', hpc⟩ := ih _ h
        exact ⟨t', List.mem_cons_of_mem _ ht', hpc⟩

lemma writeClientConfigLoop_fail (env : KBFSEnv) (conf : Config) (u : String)
    (pre : List String) (t : String) (post : List String) (e : String) (s : Store)
    (hpre : ∀ v ∈ pre, env.writeErr (configPath v) = none)
    (ht : env.writeErr (configPath t) = some e) :
    writeClientConfigLoop env conf u s (pre ++ t :: post) =
      ⟨publishStoreFold conf u s pre,
       pre.map (fun v => (configPath v, entryFor conf u v)), some e⟩ := by
  induction pre generalizing s with
  | nil =>
    simp [writeClientConfigLoop, ht, publishStoreFold]
  | cons v rest ih =>
    have hv : env.writeErr (configPath v) = none := hpre v (List.mem_cons_self ..)
    simp only [List.cons_append, writeClientConfigLoop, hv, List.append_eq]
    rw [ih _ (fun w hw => hpre w (List.mem_cons_of_mem _ hw))]
    simp [publishStoreFold]

lemma deleteClientConfigLoop_ok (env : KBFSEnv) (ts : List String) (s : Store)
    (h : (deleteClientConfigLoop env s ts).error = none) :
    deleteClientConfigLoop env s ts =
      ⟨deleteStoreFold s ts, ts.map configPath, none⟩ := by
  induction ts generalizing s with
  | nil => rfl
  | cons t rest ih =>
    cases hd : env.deleteErr (configPath t) with
    | some e =>
      simp [deleteClientConfigLoop, hd] at h
    | none =>
      simp only [deleteClientConfigLoop, hd] at h ⊢
      rw [ih _ h]
      simp [deleteStoreFold]

lemma deleteClientConfigLoop_fail (env : KBFSEnv)
    (pre : List String) (t : String) (post : List String) (e : String) (s : Store)
    (hpre : ∀ v ∈ pre, env.deleteErr (configPath v) = none)
    (ht : env.deleteErr (configPath t) = some e) :
    deleteClientConfigLoop env s (pre ++ t :: post) =
      ⟨deleteStoreFold s pre, pre.map configPath ++ [configPath t], some e⟩ := by
  induction pre generalizing s with
  | nil =>
    simp [deleteClientConfigLoop, ht, deleteStoreFold]
  | cons v rest ih =>
    have hv : env.deleteErr (configPath v) = none := hpre v (List.mem_cons_self ..)
    simp only [List.cons_append, deleteClientConfigLoop, hv, List.append_eq]
    rw [ih _ (fun w hw => hpre w (List.mem_cons_of_mem _ hw))]
    simp [deleteStoreFold]

lemma writeTeams_eq_deleteTeams (conf : Config) : writeTeams conf = deleteTeams conf := rfl

lemma writeClientConfig_ok_username (env : KBFSEnv) (conf : Config) (s : Store)
    (h : (writeClientConfig env conf s).error = none) :
    ∃ u, env.username = .ok u := by
  cases hu : env.username with
  | error e => simp [writeClientConfig, hu] at h
  | ok u => exact ⟨u, rfl⟩

lemma fsContains_fsErase_ne (fs : List String) (p q : String) (h : q ≠ p) :
    fsContains (fsErase fs p) q = fsContains fs q := by
  induction fs with
  | nil => rfl
  | cons a rest ih =>
    by_cases ha : a = p
    · simp [fsErase, fsContains, ha, Ne.symm h, ih]
    · simp [fsErase, fsContains, ha, ih]

lemma wipeLoop_found (env : WipeEnv) (ts : List String) (fs found : List String)
    (h : (ts.map configPath).Nodup) :
    (wipeLoop env fs found ts).2 =
      found ++ ts.filter (fun t => fsContains fs (configPath t)) := by
  induction ts generalizing fs found with
  | nil => simp [wipeLoop]
  | cons t rest ih =>
    simp only [List.map_cons, List.nodup_cons] at h
    obtain ⟨hp, hrest⟩ := h
    have hne : ∀ u ∈ rest, configPath u ≠ configPath t := by
      intro u hu heq
      exact hp (heq ▸ List.mem_map_of_mem configPath hu)
    by_cases hc : fsContains fs (configPath t) = true
    · have hfilter :
          rest.filter (fun u => fsContains
            (if env.deleteOk (configPath t) then fsErase fs (configPath t) else fs)
            (configPath u)) =
          rest.filter (fun u => fsContains fs (configPath u)) := by
        apply List.filter_congr
        intro u hu
        by_cases hd : env.deleteOk (configPath t)
        · simp [hd, fsContains_fsErase_ne fs (configPath t) (configPath u) (hne u hu)]
        · simp [hd]
      simp only [wipeLoop, hc, if_true]
      rw [ih _ _ hrest, hfilter]
      simp [List.filter_cons, hc]
    · simp only [wipeLoop, hc, Bool.false_eq_true, if_false]
      rw [ih _ _ hrest]
      simp [List.filter_cons, hc]

lemma scanReach_inflight_le (L n : Nat) (s : ScanState) (h : ScanReach L n s) :
    s.inflight ≤ L := by
  induction h with
  | refl => exact Nat.zero_le L
  | tail _ step ih =>
    cases step with
    | acquire w i f hi => exact hi
    | release w i f => exact Nat.le_of_succ_le ih

/-- Claim C3: for every configuration, Publish immediately followed by
Retract with the same configuration leaves no Client Config Entry
behind for any team in the computed team set, and every path written by
Publish is exactly a path whose deletion Retract attempts. -/
theorem publish_then_retract_clean (env : KBFSEnv) (conf : Config) (s : Store)
    (hw : (writeClientConfig env conf s).error = none)
    (hd : (deleteClientConfig env conf (writeClientConfig env conf s).store).error = none) :
    (∀ t ∈ deleteTeams conf,
      storeLookup
        (deleteClientConfig env conf (writeClientConfig env conf s).store).store
        (configPath t) = none) ∧
    (writeClientConfig env conf s).written.map Prod.fst =
      (deleteClientConfig env conf (writeClientConfig env conf s).store).attempted := by
  obtain ⟨u, hu⟩ := writeClientConfig_ok_username env conf s hw
  simp only [writeClientConfig, hu] at hw hd ⊢
  rw [writeClientConfigLoop_ok env conf u _ _ hw] at hd ⊢
  simp only [deleteClientConfig] at hd ⊢
  rw [deleteClientConfigLoop_ok env _ _ hd]
  constructor
  · intro t ht
    exact storeLookup_deleteStoreFold _ _ _ ht
  · simp [List.map_map, Function.comp, writeTeams, deleteTeams]

/-- Witness for C3: a one-team configuration published into an empty
store and then retracted has no entry left at its config path. -/
theorem publish_then_retract_clean_witness :
    storeLookup
      (deleteClientConfig kbfsOk ⟨["teama"], "", ""⟩
        (writeClientConfig kbfsOk ⟨["teama"], "", ""⟩ []).store).store
      (configPath "teama") = none :=
  (publish_then_retract_clean kbfsOk ⟨["teama"], "", ""⟩ [] rfl rfl).1 "teama" (by decide)

/-- Counterexample to claim C5 as stated: with authorized teams
`["teamx"]` and chat-team override `"teamx"`, the code appends the
override without a distinctness check, so the computed team list is
`["teamx", "teamx"]` and the team appears twice. -/
theorem computed_teams_duplicate_cex :
    writeTeams ⟨["teamx"], "teamx", ""⟩ = ["teamx", "teamx"] ∧
    ¬ (writeTeams ⟨["teamx"], "teamx", ""⟩).Nodup := by
  constructor
  · decide
  · decide

/-- Claim C5 (amended): Publish and Retract compute the same team list —
the authorized teams plus the chat-team override appended whenever the
override is set, with no distinctness check, so a team can appear twice
when the override is already among the authorized teams. -/
theorem computed_teams_amended (conf : Config) :
    writeTeams conf = deleteTeams conf ∧
    deleteTeams conf =
      (if conf.chatTeam = "" then conf.teams else conf.teams ++ [conf.chatTeam]) := by
  refine ⟨rfl, ?_⟩
  by_cases h : conf.chatTeam = "" <;> simp [deleteTeams, h]

/-- Counterexample to claim C2 as stated: with two authorized teams
where the first team's delete fails, Retract attempts only the first
team's deletion — the second team's deletion is never attempted and its
entry survives — while returning the first error. -/
theorem retract_stops_at_first_error_cex :
    (deleteClientConfig kbfsFailDeleteA ⟨["teama", "teamb"], "", ""⟩
        [(configPath "teama", ⟨"teama", "bot", ""⟩),
         (configPath "teamb", ⟨"teamb", "bot", ""⟩)]).attempted =
      [configPath "teama"] ∧
    (deleteClientConfig kbfsFailDeleteA ⟨["teama", "teamb"], "", ""⟩
        [(configPath "teama", ⟨"teama", "bot", ""⟩),
         (configPath "teamb", ⟨"teamb", "bot", ""⟩)]).error = some "delete failed" ∧
    "teamb" ∈ deleteTeams ⟨["teama", "teamb"], "", ""⟩ ∧
    storeLookup
      (deleteClientConfig kbfsFailDeleteA ⟨["teama", "teamb"], "", ""⟩
        [(configPath "teama", ⟨"teama", "bot", ""⟩),
         (configPath "teamb", ⟨"teamb", "bot", ""⟩)]).store
      (configPath "teamb") = some ⟨"teamb", "bot", ""⟩ := by
  refine ⟨by decide, by decide, by decide, by decide⟩

/-- Claim C2 (amended): Retract attempts deletions in team order and
reports the first error encountered, returning immediately: the teams
after the first failing deletion are not attempted. -/
theorem retract_first_error_amended (env : KBFSEnv) (conf : Config) (s : Store)
    (pre : List String) (t : String) (post : List String) (e : String)
    (hsplit : deleteTeams conf = pre ++ t :: post)
    (hpre : ∀ v ∈ pre, env.deleteErr (configPath v) = none)
    (ht : env.deleteErr (configPath t) = some e) :
    deleteClientConfig env conf s =
      ⟨deleteStoreFold s pre, pre.map configPath ++ [configPath t], some e⟩ := by
  simp only [deleteClientConfig, hsplit]
  exact deleteClientConfigLoop_fail env pre t post e s hpre ht

/-- Witness for the amended C2: with the first team's delete failing,
Retract returns that error having attempted only the first path. -/
theorem retract_first_error_amended_witness :
    deleteClientConfig kbfsFailDeleteA ⟨["teama", "teamb"], "", ""⟩ [] =
      ⟨[], [configPath "teama"], some "delete failed"⟩ :=
  retract_first_error_amended kbfsFailDeleteA ⟨["teama", "teamb"], "", ""⟩ []
    [] "teama" ["teamb"] "delete failed" rfl (by intro v hv; cases hv) (by decide)

/-- Counterexample to claim C1 as stated: with a working KBFS and a bot
that returns error `"boom"`, the service surfaces the wrapped fatal
error but attempts no deletion, leaving the published entry for
`teama` in place — retraction is not attempted. -/
theorem service_bot_error_skips_retraction_cex :
    (serviceAction svcBotErr ⟨["teama"], "", ""⟩ []).error =
      some "CA chatbot crashed: boom" ∧
    (serviceAction svcBotErr ⟨["teama"], "", ""⟩ []).deletesAttempted = [] ∧
    storeLookup (serviceAction svcBotErr ⟨["teama"], "", ""⟩ []).store
      (configPath "teama") = some ⟨"teama", "bot", ""⟩ := by
  refine ⟨by decide, by decide, by decide⟩

/-- Claim C1 (amended): if the chat bot returns an error, that error is
surfaced as the service's fatal error (wrapped as `CA chatbot crashed:`)
and the service returns immediately — retraction is not attempted and
the published Client Config Entries are left in place; retraction runs
only when the bot returns without error. -/
theorem service_bot_error_amended (env : ServiceEnv) (conf : Config) (s : Store)
    (e : String)
    (hv : env.validateErr = none)
    (hw : (writeClientConfig env.kbfs conf s).error = none)
    (hb : env.startBot = some e) :
    serviceAction env conf s =
      ⟨(writeClientConfig env.kbfs conf s).store, [],
       some ("CA chatbot crashed: " ++ e)⟩ := by
  simp [serviceAction, hv, hw, hb]

/-- Witness for the amended C1: the concrete crashed-bot run returns
the wrapped error with no deletion attempted. -/
theorem service_bot_error_amended_witness :
    serviceAction svcBotErr ⟨["teama"], "", ""⟩ [] =
      ⟨(writeClientConfig kbfsOk ⟨["teama"], "", ""⟩ []).store, [],
       some ("CA chatbot crashed: " ++ "boom")⟩ :=
  service_bot_error_amended svcBotErr ⟨["teama"], "", ""⟩ [] "boom" rfl rfl rfl

/-- Claim C10: Publish is atomic with respect to identity resolution —
if resolving the bot account fails, its error is returned with no entry
written and the store untouched; and if the write for some team fails
after earlier teams succeeded, Publish returns that error immediately,
with exactly the earlier teams' entries written and the remaining teams
unattempted. -/
theorem publish_failure_atomicity (env : KBFSEnv) (conf : Config) (s : Store) :
    (∀ e, env.username = .error e → writeClientConfig env conf s = ⟨s, [], some e⟩) ∧
    (∀ u pre t post e, env.username = .ok u →
      writeTeams conf = pre ++ t :: post →
      (∀ v ∈ pre, env.writeErr (configPath v) = none) →
      env.writeErr (configPath t) = some e →
      writeClientConfig env conf s =
        ⟨publishStoreFold conf u s pre,
         pre.map (fun v => (configPath v, entryFor conf u v)), some e⟩) := by
  constructor
  · intro e he
    simp [writeClientConfig, he]
  · intro u pre t post e hu hsplit hpre ht
    simp only [writeClientConfig, hu, hsplit]
    exact writeClientConfigLoop_fail env conf u pre t post e s hpre ht

/-- Witness for C10: a failed identity resolution writes nothing, and a
three-team publish whose second write fails records exactly the first
team's entry and returns the write error. -/
theorem publish_failure_atomicity_witness :
    writeClientConfig kbfsNoUser ⟨["teama"], "", ""⟩ [] = ⟨[], [], some "user err"⟩ ∧
    writeClientConfig kbfsFailWriteB ⟨["teama", "teamb", "teamc"], "", ""⟩ [] =
      ⟨publishStoreFold ⟨["teama", "teamb", "teamc"], "", ""⟩ "bot" [] ["teama"],
       [(configPath "teama",
         entryFor ⟨["teama", "teamb", "teamc"], "", ""⟩ "bot" "teama")],
       some "write failed"⟩ :=
  ⟨(publish_failure_atomicity kbfsNoUser ⟨["teama"], "", ""⟩ []).1 "user err" rfl,
   (publish_failure_atomicity kbfsFailWriteB ⟨["teama", "teamb", "teamc"], "", ""⟩ []).2
     "bot" ["teama"] "teamb" ["teamc"] "write failed" rfl rfl (by decide) (by decide)⟩

/-- Claim C8: every entry Publish writes when a chat-team override is
set has team name and channel name equal to the override's team and
channel; without an override, each written entry sits at its own team's
path with team name equal to that team and an empty channel name. -/
theorem publish_entry_fields (env : KBFSEnv) (conf : Config) (s : Store) (u : String)
    (hu : env.username = .ok u) :
    ∀ pc ∈ (writeClientConfig env conf s).written,
      (conf.chatTeam ≠ "" →
        pc.2.teamName = conf.chatTeam ∧ pc.2.channelName = conf.channelName) ∧
      (conf.chatTeam = "" →
        ∃ t ∈ conf.teams,
          pc.1 = configPath t ∧ pc.2.teamName = t ∧ pc.2.channelName = "") := by
  intro pc hpc
  simp only [writeClientConfig, hu] at hpc
  obtain ⟨t, ht, hpc2⟩ :=
    writeClientConfigLoop_written_mem env conf u (writeTeams conf) s pc hpc
  subst hpc2
  constructor
  · intro hchat
    simp [entryFor, hchat]
  · intro hchat
    have ht' : t ∈ conf.teams := by
      simpa [writeTeams, hchat] using ht
    exact ⟨t, ht', rfl, by simp [entryFor, hchat], by simp [entryFor, hchat]⟩

/-- Witness for C8: with override team `chatteam` and channel `chan`,
the entry written into `teama`'s namespace carries the override's team
and channel names. -/
theorem publish_entry_fields_witness :
    (configPath "teama", entryFor ⟨["teama"], "chatteam", "chan"⟩ "bot" "teama").2.teamName
      = "chatteam" ∧
    (configPath "teama", entryFor ⟨["teama"], "chatteam", "chan"⟩ "bot" "teama").2.channelName
      = "chan" :=
  (publish_entry_fields kbfsOk ⟨["teama"], "chatteam", "chan"⟩ [] "bot" rfl
    (configPath "teama", entryFor ⟨["teama"], "chatteam", "chan"⟩ "bot" "teama")
    (by decide)).1 (by decide)

/-- Claim C7: backup reads the CA key file only after the typed
response is exactly `"yes"`; on any other response, or on an
input-read failure, it aborts with an error having read no file at
all. -/
theorem backup_requires_yes (env : BackupEnv) (h : env.scanln ≠ .ok "yes") :
    (backupAction env).reads = [] ∧ (backupAction env).error.isSome = true := by
  cases hs : env.scanln with
  | error e => simp [backupAction, hs]
  | ok r =>
    have hr : r ≠ "yes" := by
      rintro rfl
      exact h hs
    simp [backupAction, hs, hr]

/-- Witness for C7: typing `"no"` aborts with an error and no read. -/
theorem backup_requires_yes_witness :
    (backupAction ⟨.ok "no", none, "/etc/ca/key", fun _ => .ok "KEY"⟩).reads = [] ∧
    (backupAction ⟨.ok "no", none, "/etc/ca/key", fun _ => .ok "KEY"⟩).error.isSome
      = true :=
  backup_requires_yes ⟨.ok "no", none, "/etc/ca/key", fun _ => .ok "KEY"⟩ (by simp)

/-- Counterexample to claim C4 as stated: invoking sign on
`id_rsa.pub` with no certificate at the derived path and no
`--overwrite` makes the code take the write branch: the certificate
file is written, nothing is printed to output in its place, and the
derived path exists afterwards. -/
theorem sign_no_cert_no_overwrite_writes_cex :
    (signAction signOk [] "id_rsa.pub" false).filesWritten =
      [(certPathOf "id_rsa.pub", "CERT")] ∧
    (signAction signOk [] "id_rsa.pub" false).printedCert = false ∧
    fsContains (signAction signOk [] "id_rsa.pub" false).fs (certPathOf "id_rsa.pub")
      = true := by
  refine ⟨by decide, by decide, by decide⟩

/-- Claim C4 (amended): when no certificate exists at the derived path
the certificate is written there regardless of `--overwrite` (and the
path exists afterwards); when a certificate exists it is overwritten
only with `--overwrite`; the certificate is printed to output, with no
file written, exactly when a certificate already exists and
`--overwrite` is not given. -/
theorem sign_overwrite_policy_amended (env : SignEnv) (fs : List String)
    (filename : String) (overwrite : Bool) (pk sig : String)
    (h1 : env.validateErr = none) (h2 : env.uuidErr = none)
    (h3 : env.readFile filename = .ok pk) (h4 : env.sign pk = .ok sig)
    (h5 : env.writeErr (certPathOf filename) = none) :
    (fsContains fs (certPathOf filename) = false →
      signAction env fs filename overwrite =
        ⟨certPathOf filename :: fs, [(certPathOf filename, sig)], false, none⟩) ∧
    (fsContains fs (certPathOf filename) = true → overwrite = true →
      signAction env fs filename overwrite =
        ⟨fs, [(certPathOf filename, sig)], false, none⟩) ∧
    (fsContains fs (certPathOf filename) = true → overwrite = false →
      signAction env fs filename overwrite = ⟨fs, [], true, none⟩) := by
  refine ⟨?_, ?_, ?_⟩
  · intro hc
    simp [signAction, h1, h2, h3, h4, h5, hc]
  · intro hc ho
    simp [signAction, h1, h2, h3, h4, h5, hc, ho]
  · intro hc ho
    simp [signAction, h1, h2, h3, h4, h5, hc, ho]

/-- Witness for the amended C4: with no certificate present and no
`--overwrite`, the certificate file is written at the derived path. -/
theorem sign_overwrite_policy_amended_witness :
    signAction signOk [] "id_rsa.pub" false =
      ⟨[certPathOf "id_rsa.pub"], [(certPathOf "id_rsa.pub", "CERT")], false, none⟩ :=
  (sign_overwrite_policy_amended signOk [] "id_rsa.pub" false "PUBKEY" "CERT"
    rfl rfl rfl rfl rfl).1 rfl

/-- Counterexample to claim C6 as stated: when `beta`'s config file
exists but its delete fails (the error is only printed), the scan still
reports `["beta"]` even though no deletion occurred — the file is still
present afterwards — so the result is not the list of teams where a
deletion occurred. -/
theorem wipe_reports_failed_delete_cex :
    wipeAllConfigs wipeFailDelete [configPath "beta"] ["alpha", "beta", "gamma"] =
      ([configPath "beta"], ["beta"]) := by
  decide

/-- Claim C6 (amended): the scan completes for every team even when an
individual team's deletion errors (the error is only printed), and the
reported result is exactly the teams whose config file existed when
checked — i.e. where a deletion was attempted — regardless of whether
the delete succeeded; in the error-free scenario with teams
`alpha`, `beta`, `gamma` and a stray file only for `beta`, the result
is exactly `["beta"]` and only that file is deleted. -/
theorem wipe_scan_amended (env : WipeEnv) (fs : List String) (teams : List String)
    (h : (teams.map configPath).Nodup) :
    (wipeAllConfigs env fs teams).2 =
      teams.filter (fun t => fsContains fs (configPath t)) ∧
    wipeAllConfigs wipeOk [configPath "beta", "/keybase/other"]
      ["alpha", "beta", "gamma"] = (["/keybase/other"], ["beta"]) := by
  constructor
  · simpa using wipeLoop_found env teams fs [] h
  · decide

/-- Witness for the amended C6: the three-team scenario itself. -/
theorem wipe_scan_amended_witness :
    (wipeAllConfigs wipeOk [configPath "beta", "/keybase/other"]
      ["alpha", "beta", "gamma"]).2 =
      ["alpha", "beta", "gamma"].filter
        (fun t => fsContains [configPath "beta", "/keybase/other"] (configPath t)) ∧
    wipeAllConfigs wipeOk [configPath "beta", "/keybase/other"]
      ["alpha", "beta", "gamma"] = (["/keybase/other"], ["beta"]) :=
  wipe_scan_amended wipeOk [configPath "beta", "/keybase/other"]
    ["alpha", "beta", "gamma"] (by decide)

/-- Claim C9: in every state the bounded scan can reach, at most `L`
goroutines hold a slot of the bounded channel — at most `L`
existence-check/delete operations are in flight — for any number of
launched teams, including counts far above `L`; and with zero teams the
scan immediately reports an empty result, leaving the file system
untouched. -/
theorem scanner_bound (L n : Nat) (s : ScanState) (h : ScanReach L n s) :
    s.inflight ≤ L ∧
    ∀ (env : WipeEnv) (fs : List String), wipeAllConfigs env fs [] = (fs, []) :=
  ⟨scanReach_inflight_le L n s h, fun _ _ => rfl⟩

/-- Witness for C9: with limit 2 and 100 launched teams, the state
after two acquisitions is reachable and within the bound, and the
zero-team scan on a concrete file system returns it unchanged with an
empty result. -/
theorem scanner_bound_witness :
    (⟨98, 2, 0⟩ : ScanState).inflight ≤ 2 ∧
    wipeAllConfigs wipeOk [configPath "beta"] [] = ([configPath "beta"], []) := by
  have h : ScanReach 2 100 ⟨98, 2, 0⟩ :=
    Relation.ReflTransGen.tail
      (Relation.ReflTransGen.tail Relation.ReflTransGen.refl
        (ScanStep.acquire 99 0 0 (by decide)))
      (ScanStep.acquire 98 1 0 (by decide))
  exact ⟨(scanner_bound 2 100 ⟨98, 2, 0⟩ h).1,
         (scanner_bound 2 100 ⟨98, 2, 0⟩ h).2 wipeOk [configPath "beta"]⟩
